import Mathlib

/-!
Verification of the panel-layout geometry of `make_panel.py` (dzus_panels).

The script is a straight-line program that emits 2D geometric primitives
(line segments, circular arcs, circles) tagged with a drawing layer, for a
flight-simulator panel: a rectangular backing plate and an inset fascia with
rebate cutouts around each fastener.  All measurements are converted from
inches (or fastener units of 3/8 inch) to millimetres.

The embedding below mirrors the script line by line.  All arithmetic is done
in `ℚ`: every constant in the source is a rational literal and every
operation is `+ - * /`, so the rational model coincides with the real-number
geometry the script denotes (the script's Python floats introduce only
rounding noise far below the 1e-6 mm tolerance the specification names).
The drawing is modelled as the ordered list of emitted entities.
-/

set_option maxHeartbeats 1600000

namespace DzusPanels

/-- A 2D point, in millimetre coordinates. -/
structure Point where
  x : ℚ
  y : ℚ
deriving DecidableEq, Repr

/-- The geometric primitives the script emits: `add_line`, `add_arc`
(circular arc given centre, radius, start angle and end angle in degrees,
swept counter-clockwise) and `add_circle`. -/
inductive Primitive where
  | line (s e : Point)
  | arc (c : Point) (r : ℚ) (a1 a2 : ℚ)
  | circle (c : Point) (r : ℚ)
deriving DecidableEq, Repr

/-- The fixed set of drawing layers created by the script. -/
inductive Layer where
  | plate
  | plate_construction
  | fascia
  | fascia_construction
  | decal
  | decal_construction
deriving DecidableEq, Repr

/-- A primitive together with the layer it is emitted on. -/
structure Entity where
  prim : Primitive
  layer : Layer
deriving DecidableEq, Repr

/-- `intomm` from the script: convert inches to millimetres. -/
def intomm (inches : ℚ) : ℚ := inches * (254 / 10)

/-- Vertical centre of the fastener at unit position `pos`:
`intomm(pos * (3/8) + (3/16))`, an expression the script repeats verbatim
for every mounting hole and rebate. -/
def fastenerY (pos : ℚ) : ℚ := intomm (pos * (3 / 8) + (3 / 16))

/-- Outline of the plate: four lines, bottom, right, top, left
(the script has `left = bottom = 0`, `right = intomm w`, `top = intomm (h*3/8)`). -/
def plateOutline (right top : ℚ) : List Entity :=
  [ ⟨.line ⟨0, 0⟩ ⟨right, 0⟩, .plate⟩,
    ⟨.line ⟨right, 0⟩ ⟨right, top⟩, .plate⟩,
    ⟨.line ⟨right, top⟩ ⟨0, top⟩, .plate⟩,
    ⟨.line ⟨0, top⟩ ⟨0, 0⟩, .plate⟩ ]

/-- Body of `for pos in left_mount` in the PLATE section: one horizontal
construction line from `left-10` to the midline and one radius-2 circle at
`(intomm(3/16), fastenerY pos)`. -/
def leftPlateLoop (right : ℚ) : List ℚ → List Entity
  | [] => []
  | pos :: rest =>
      [ ⟨.line ⟨-10, fastenerY pos⟩ ⟨right / 2, fastenerY pos⟩, .plate_construction⟩,
        ⟨.circle ⟨intomm (3 / 16), fastenerY pos⟩ 2, .plate⟩ ]
      ++ leftPlateLoop right rest

/-- Mounting holes in the plate, left side: the `if left_mount:` vertical
construction line followed by the loop. -/
def leftPlateMount (right top : ℚ) (lm : List ℚ) : List Entity :=
  (if lm = [] then [] else
    [⟨.line ⟨intomm (3 / 16), -10⟩ ⟨intomm (3 / 16), top + 10⟩, .plate_construction⟩])
  ++ leftPlateLoop right lm

/-- Body of `for pos in right_mount` in the PLATE section. -/
def rightPlateLoop (right : ℚ) : List ℚ → List Entity
  | [] => []
  | pos :: rest =>
      [ ⟨.line ⟨right / 2, fastenerY pos⟩ ⟨right + 10, fastenerY pos⟩, .plate_construction⟩,
        ⟨.circle ⟨right - intomm (3 / 16), fastenerY pos⟩ 2, .plate⟩ ]
      ++ rightPlateLoop right rest

/-- Mounting holes in the plate, right side. -/
def rightPlateMount (right top : ℚ) (rm : List ℚ) : List Entity :=
  (if rm = [] then [] else
    [⟨.line ⟨right - intomm (3 / 16), -10⟩ ⟨right - intomm (3 / 16), top + 10⟩, .plate_construction⟩])
  ++ rightPlateLoop right rm

/-- Outline of the fascia: four rounded corners (radius 1/32 inch, centres
inset 2/32 inch) and the bottom and top straight edges, in the script's
emission order: bottom-left corner, bottom line, bottom-right corner,
top-left corner, top line, top-right corner. -/
def fasciaOutline (right top : ℚ) : List Entity :=
  [ ⟨.arc ⟨intomm (2 / 32), intomm (2 / 32)⟩ (intomm (1 / 32)) 180 270, .fascia⟩,
    ⟨.line ⟨intomm (2 / 32), intomm (1 / 32)⟩ ⟨right - intomm (2 / 32), intomm (1 / 32)⟩, .fascia⟩,
    ⟨.arc ⟨right - intomm (2 / 32), intomm (2 / 32)⟩ (intomm (1 / 32)) 270 0, .fascia⟩,
    ⟨.arc ⟨intomm (2 / 32), top - intomm (2 / 32)⟩ (intomm (1 / 32)) 90 180, .fascia⟩,
    ⟨.line ⟨intomm (2 / 32), top - intomm (1 / 32)⟩ ⟨right - intomm (2 / 32), top - intomm (1 / 32)⟩, .fascia⟩,
    ⟨.arc ⟨right - intomm (2 / 32), top - intomm (2 / 32)⟩ (intomm (1 / 32)) 0 90, .fascia⟩ ]

/-- Horizontal and vertical construction lines across the centre of the
fascia. -/
def fasciaCentreLines (right top : ℚ) : List Entity :=
  [ ⟨.line ⟨right / 2, -10⟩ ⟨right / 2, top + 10⟩, .fascia_construction⟩,
    ⟨.line ⟨-10, top / 2⟩ ⟨right + 10, top / 2⟩, .fascia_construction⟩ ]

/-- One iteration of the left-side rebate loop: the locating construction
line, the straight lead-in from `(last_x, last_y)`, the lower 1/32-inch
fillet arc, the lower pocket-mouth segment, the 180-degree pocket arc of
radius (3/16+1/16) inch around the fastener centre, the upper mouth segment
and the upper fillet arc.  `last_x` stays `intomm (1/32)` throughout the
script (the assignment to it inside the loop is commented out). -/
def leftRebate (right lastx lasty pos : ℚ) : List Entity :=
  [ ⟨.line ⟨-10, fastenerY pos⟩ ⟨right / 2, fastenerY pos⟩, .fascia_construction⟩,
    ⟨.line ⟨lastx, lasty⟩
        ⟨intomm (1 / 32), fastenerY pos - intomm (3 / 16 + 1 / 16 + 1 / 32)⟩, .fascia⟩,
    ⟨.arc ⟨intomm (2 / 32), fastenerY pos - intomm (3 / 16 + 1 / 16 + 1 / 32)⟩
        (intomm (1 / 32)) 90 180, .fascia⟩,
    ⟨.line ⟨intomm (2 / 32), fastenerY pos - intomm (3 / 16 + 1 / 16)⟩
        ⟨intomm (3 / 16), fastenerY pos - intomm (3 / 16 + 1 / 16)⟩, .fascia⟩,
    ⟨.arc ⟨intomm (3 / 16), fastenerY pos⟩ (intomm (3 / 16 + 1 / 16)) 270 90, .fascia⟩,
    ⟨.line ⟨intomm (2 / 32), fastenerY pos + intomm (3 / 16 + 1 / 16)⟩
        ⟨intomm (3 / 16), fastenerY pos + intomm (3 / 16 + 1 / 16)⟩, .fascia⟩,
    ⟨.arc ⟨intomm (2 / 32), fastenerY pos + intomm (3 / 16 + 1 / 16 + 1 / 32)⟩
        (intomm (1 / 32)) 180 270, .fascia⟩ ]

/-- The left-side rebate loop, threading `last_y` exactly as the script does:
after each fastener, `last_y = centre_y + intomm(3/16 + 1/16 + 1/32)`. -/
def leftLoop (right lastx lasty : ℚ) : List ℚ → List Entity
  | [] => []
  | pos :: rest =>
      leftRebate right lastx lasty pos
      ++ leftLoop right lastx (fastenerY pos + intomm (3 / 16 + 1 / 16 + 1 / 32)) rest

/-- Final value of the script's `last_y` after a rebate loop (same formula on
both sides). -/
def finalY (lasty : ℚ) : List ℚ → ℚ
  | [] => lasty
  | pos :: rest => finalY (fastenerY pos + intomm (3 / 16 + 1 / 16 + 1 / 32)) rest

/-- The full left-hand fascia block: optional vertical construction line, the
rebate loop started at `(intomm (1/32), intomm (2/32))`, and the closing line
up to the start of the top-left corner. -/
def leftFascia (right top : ℚ) (lm : List ℚ) : List Entity :=
  (if lm = [] then [] else
    [⟨.line ⟨intomm (3 / 16), -10⟩ ⟨intomm (3 / 16), top + 10⟩, .fascia_construction⟩])
  ++ leftLoop right (intomm (1 / 32)) (intomm (2 / 32)) lm
  ++ [⟨.line ⟨intomm (1 / 32), finalY (intomm (2 / 32)) lm⟩
        ⟨intomm (1 / 32), top - intomm (2 / 32)⟩, .fascia⟩]

/-- One iteration of the right-side rebate loop (hand-mirrored in the
script: x coordinates measured from `right`, arc angle pairs (0,90),
(90,270), (270,0)). -/
def rightRebate (right lastx lasty pos : ℚ) : List Entity :=
  [ ⟨.line ⟨right / 2, fastenerY pos⟩ ⟨right + 10, fastenerY pos⟩, .fascia_construction⟩,
    ⟨.line ⟨lastx, lasty⟩
        ⟨right - intomm (1 / 32), fastenerY pos - intomm (3 / 16 + 1 / 16 + 1 / 32)⟩, .fascia⟩,
    ⟨.arc ⟨right - intomm (2 / 32), fastenerY pos - intomm (3 / 16 + 1 / 16 + 1 / 32)⟩
        (intomm (1 / 32)) 0 90, .fascia⟩,
    ⟨.line ⟨right - intomm (2 / 32), fastenerY pos - intomm (3 / 16 + 1 / 16)⟩
        ⟨right - intomm (3 / 16), fastenerY pos - intomm (3 / 16 + 1 / 16)⟩, .fascia⟩,
    ⟨.arc ⟨right - intomm (3 / 16), fastenerY pos⟩ (intomm (3 / 16 + 1 / 16)) 90 270, .fascia⟩,
    ⟨.line ⟨right - intomm (2 / 32), fastenerY pos + intomm (3 / 16 + 1 / 16)⟩
        ⟨right - intomm (3 / 16), fastenerY pos + intomm (3 / 16 + 1 / 16)⟩, .fascia⟩,
    ⟨.arc ⟨right - intomm (2 / 32), fastenerY pos + intomm (3 / 16 + 1 / 16 + 1 / 32)⟩
        (intomm (1 / 32)) 270 0, .fascia⟩ ]

/-- The right-side rebate loop. -/
def rightLoop (right lastx lasty : ℚ) : List ℚ → List Entity
  | [] => []
  | pos :: rest =>
      rightRebate right lastx lasty pos
      ++ rightLoop right lastx (fastenerY pos + intomm (3 / 16 + 1 / 16 + 1 / 32)) rest

/-- The full right-hand fascia block, started at
`(right - intomm (1/32), intomm (2/32))`. -/
def rightFascia (right top : ℚ) (rm : List ℚ) : List Entity :=
  (if rm = [] then [] else
    [⟨.line ⟨right - intomm (3 / 16), -10⟩ ⟨right - intomm (3 / 16), top + 10⟩,
        .fascia_construction⟩])
  ++ rightLoop right (right - intomm (1 / 32)) (intomm (2 / 32)) rm
  ++ [⟨.line ⟨right - intomm (1 / 32), finalY (intomm (2 / 32)) rm⟩
        ⟨right - intomm (1 / 32), top - intomm (2 / 32)⟩, .fascia⟩]

/-- Centreline for the panel name, on `decal_construction`. -/
def decalCentreline (right top : ℚ) : List Entity :=
  [⟨.line ⟨-10, top - intomm (13 / 64)⟩ ⟨right + 10, top - intomm (13 / 64)⟩,
      .decal_construction⟩]

/-- The whole drawing produced by `make_panel.py` for a given width in
inches, height in fastener units and the two mounting-hole position lists,
as the ordered list of emitted entities. -/
def makePanel (w_inches h_units : ℚ) (left_mount right_mount : List ℚ) : List Entity :=
  let top := intomm (h_units * (3 / 8))
  let right := intomm w_inches
  plateOutline right top
  ++ leftPlateMount right top left_mount
  ++ rightPlateMount right top right_mount
  ++ fasciaOutline right top
  ++ fasciaCentreLines right top
  ++ leftFascia right top left_mount
  ++ rightFascia right top right_mount
  ++ decalCentreline right top

/-- The input of a generation run: panel width in inches, height in fastener
units, and the ordered fastener position lists for the two sides. -/
structure PanelSpec where
  w_inches : ℚ
  h_units : ℚ
  left_mount : List ℚ
  right_mount : List ℚ
deriving DecidableEq, Repr

/-- Generate the primitive stream from a `PanelSpec`. -/
def generate (s : PanelSpec) : List Entity :=
  makePanel s.w_inches s.h_units s.left_mount s.right_mount

/-- The primitives emitted on one layer, in emission order. -/
def onLayer (name : Layer) (es : List Entity) : List Primitive :=
  es.filterMap (fun e => if e.layer = name then some e.prim else none)

/-- Recognize a line segment. -/
def isLine : Primitive → Bool
  | .line _ _ => true
  | _ => false

/-- Recognize a circle. -/
def isCircle : Primitive → Bool
  | .circle _ _ => true
  | _ => false

/-- The circles emitted on the `plate` layer (the mounting holes). -/
def plateCircles (es : List Entity) : List Primitive :=
  (onLayer .plate es).filter isCircle

/-! ### Orientation-tagged fascia sequences

A DXF arc is always swept counter-clockwise from its start angle to its end
angle, and a line stores its two endpoints in emission order, so a closed
walk along the fascia boundary traverses some primitives against their
stored direction.  The tagged lists below pair each fascia primitive of a
rebate with the flag `true` when the boundary walk bottom-to-top traverses
it in reverse.  Projecting the tags away recovers exactly the emitted
fascia primitives of the rebate loops, which is proved below. -/

/-- The six fascia primitives of one left-side rebate, with traversal
flags. -/
def leftRebateTagged (lastx lasty pos : ℚ) : List (Primitive × Bool) :=
  [ (.line ⟨lastx, lasty⟩
        ⟨intomm (1 / 32), fastenerY pos - intomm (3 / 16 + 1 / 16 + 1 / 32)⟩, false),
    (.arc ⟨intomm (2 / 32), fastenerY pos - intomm (3 / 16 + 1 / 16 + 1 / 32)⟩
        (intomm (1 / 32)) 90 180, true),
    (.line ⟨intomm (2 / 32), fastenerY pos - intomm (3 / 16 + 1 / 16)⟩
        ⟨intomm (3 / 16), fastenerY pos - intomm (3 / 16 + 1 / 16)⟩, false),
    (.arc ⟨intomm (3 / 16), fastenerY pos⟩ (intomm (3 / 16 + 1 / 16)) 270 90, false),
    (.line ⟨intomm (2 / 32), fastenerY pos + intomm (3 / 16 + 1 / 16)⟩
        ⟨intomm (3 / 16), fastenerY pos + intomm (3 / 16 + 1 / 16)⟩, true),
    (.arc ⟨intomm (2 / 32), fastenerY pos + intomm (3 / 16 + 1 / 16 + 1 / 32)⟩
        (intomm (1 / 32)) 180 270, true) ]

/-- The tagged left-side rebate loop, threading `last_y` like the script. -/
def leftTagged (lastx lasty : ℚ) : List ℚ → List (Primitive × Bool)
  | [] => []
  | pos :: rest =>
      leftRebateTagged lastx lasty pos
      ++ leftTagged lastx (fastenerY pos + intomm (3 / 16 + 1 / 16 + 1 / 32)) rest

/-- The six fascia primitives of one right-side rebate, with traversal
flags. -/
def rightRebateTagged (right lastx lasty pos : ℚ) : List (Primitive × Bool) :=
  [ (.line ⟨lastx, lasty⟩
        ⟨right - intomm (1 / 32), fastenerY pos - intomm (3 / 16 + 1 / 16 + 1 / 32)⟩, false),
    (.arc ⟨right - intomm (2 / 32), fastenerY pos - intomm (3 / 16 + 1 / 16 + 1 / 32)⟩
        (intomm (1 / 32)) 0 90, false),
    (.line ⟨right - intomm (2 / 32), fastenerY pos - intomm (3 / 16 + 1 / 16)⟩
        ⟨right - intomm (3 / 16), fastenerY pos - intomm (3 / 16 + 1 / 16)⟩, false),
    (.arc ⟨right - intomm (3 / 16), fastenerY pos⟩ (intomm (3 / 16 + 1 / 16)) 90 270, true),
    (.line ⟨right - intomm (2 / 32), fastenerY pos + intomm (3 / 16 + 1 / 16)⟩
        ⟨right - intomm (3 / 16), fastenerY pos + intomm (3 / 16 + 1 / 16)⟩, true),
    (.arc ⟨right - intomm (2 / 32), fastenerY pos + intomm (3 / 16 + 1 / 16 + 1 / 32)⟩
        (intomm (1 / 32)) 270 0, false) ]

/-- The tagged right-side rebate loop. -/
def rightTagged (right lastx lasty : ℚ) : List ℚ → List (Primitive × Bool)
  | [] => []
  | pos :: rest =>
      rightRebateTagged right lastx lasty pos
      ++ rightTagged right lastx (fastenerY pos + intomm (3 / 16 + 1 / 16 + 1 / 32)) rest

/-! ### Layer bookkeeping -/

theorem onLayer_append (n : Layer) (a b : List Entity) :
    onLayer n (a ++ b) = onLayer n a ++ onLayer n b := by
  simp [onLayer]

theorem onLayer_nil (n : Layer) : onLayer n [] = [] := rfl

theorem onLayer_cons (n : Layer) (e : Entity) (es : List Entity) :
    onLayer n (e :: es) =
      if e.layer = n then e.prim :: onLayer n es else onLayer n es := by
  by_cases hc : e.layer = n <;> simp [onLayer, List.filterMap_cons, hc]

theorem onLayer_eq_nil {n : Layer} :
    ∀ (es : List Entity), (∀ e ∈ es, e.layer ≠ n) → onLayer n es = []
  | [], _ => rfl
  | a :: l, h => by
      have ha : ¬ (a.layer = n) := h a (List.mem_cons_self a l)
      calc onLayer n (a :: l) = onLayer n l := by
            simp [onLayer, List.filterMap_cons, ha]
        _ = [] := onLayer_eq_nil l (fun e he => h e (List.mem_cons_of_mem a he))

theorem layer_mem_leftLoop (right lx : ℚ) :
    ∀ (lm : List ℚ) (ly : ℚ), ∀ e ∈ leftLoop right lx ly lm,
      e.layer = .fascia ∨ e.layer = .fascia_construction
  | [], ly => by simp [leftLoop]
  | pos :: rest, ly => by
      intro e he
      simp only [leftLoop] at he
      rcases List.mem_append.mp he with h | h
      · simp only [leftRebate, List.mem_cons, List.not_mem_nil, or_false] at h
        rcases h with rfl | rfl | rfl | rfl | rfl | rfl | rfl <;> simp
      · exact layer_mem_leftLoop right lx rest _ e h

theorem layer_mem_rightLoop (right lx : ℚ) :
    ∀ (rm : List ℚ) (ly : ℚ), ∀ e ∈ rightLoop right lx ly rm,
      e.layer = .fascia ∨ e.layer = .fascia_construction
  | [], ly => by simp [rightLoop]
  | pos :: rest, ly => by
      intro e he
      simp only [rightLoop] at he
      rcases List.mem_append.mp he with h | h
      · simp only [rightRebate, List.mem_cons, List.not_mem_nil, or_false] at h
        rcases h with rfl | rfl | rfl | rfl | rfl | rfl | rfl <;> simp
      · exact layer_mem_rightLoop right lx rest _ e h

theorem layer_mem_leftPlateLoop (right : ℚ) :
    ∀ (lm : List ℚ), ∀ e ∈ leftPlateLoop right lm,
      e.layer = .plate ∨ e.layer = .plate_construction
  | [] => by simp [leftPlateLoop]
  | pos :: rest => by
      intro e he
      simp only [leftPlateLoop] at he
      rcases List.mem_append.mp he with h | h
      · simp only [List.mem_cons, List.not_mem_nil, or_false] at h
        rcases h with rfl | rfl <;> simp
      · exact layer_mem_leftPlateLoop right rest e h

theorem layer_mem_rightPlateLoop (right : ℚ) :
    ∀ (rm : List ℚ), ∀ e ∈ rightPlateLoop right rm,
      e.layer = .plate ∨ e.layer = .plate_construction
  | [] => by simp [rightPlateLoop]
  | pos :: rest => by
      intro e he
      simp only [rightPlateLoop] at he
      rcases List.mem_append.mp he with h | h
      · simp only [List.mem_cons, List.not_mem_nil, or_false] at h
        rcases h with rfl | rfl <;> simp
      · exact layer_mem_rightPlateLoop right rest e h

theorem onLayer_leftLoop_nil (n : Layer) (right lx ly : ℚ) (lm : List ℚ)
    (h1 : n ≠ .fascia) (h2 : n ≠ .fascia_construction) :
    onLayer n (leftLoop right lx ly lm) = [] := by
  refine onLayer_eq_nil _ (fun e he hn => ?_)
  rcases layer_mem_leftLoop right lx lm ly e he with h | h
  · exact h1 (hn.symm.trans h)
  · exact h2 (hn.symm.trans h)

theorem onLayer_rightLoop_nil (n : Layer) (right lx ly : ℚ) (rm : List ℚ)
    (h1 : n ≠ .fascia) (h2 : n ≠ .fascia_construction) :
    onLayer n (rightLoop right lx ly rm) = [] := by
  refine onLayer_eq_nil _ (fun e he hn => ?_)
  rcases layer_mem_rightLoop right lx rm ly e he with h | h
  · exact h1 (hn.symm.trans h)
  · exact h2 (hn.symm.trans h)

theorem onLayer_leftPlateLoop_nil (n : Layer) (right : ℚ) (lm : List ℚ)
    (h1 : n ≠ .plate) (h2 : n ≠ .plate_construction) :
    onLayer n (leftPlateLoop right lm) = [] := by
  refine onLayer_eq_nil _ (fun e he hn => ?_)
  rcases layer_mem_leftPlateLoop right lm e he with h | h
  · exact h1 (hn.symm.trans h)
  · exact h2 (hn.symm.trans h)

theorem onLayer_rightPlateLoop_nil (n : Layer) (right : ℚ) (rm : List ℚ)
    (h1 : n ≠ .plate) (h2 : n ≠ .plate_construction) :
    onLayer n (rightPlateLoop right rm) = [] := by
  refine onLayer_eq_nil _ (fun e he hn => ?_)
  rcases layer_mem_rightPlateLoop right rm e he with h | h
  · exact h1 (hn.symm.trans h)
  · exact h2 (hn.symm.trans h)

theorem onLayer_plate_leftPlateLoop (right : ℚ) :
    ∀ (lm : List ℚ), onLayer .plate (leftPlateLoop right lm)
      = lm.map (fun pos => .circle ⟨intomm (3 / 16), fastenerY pos⟩ 2)
  | [] => rfl
  | pos :: rest => by
      simp only [leftPlateLoop, onLayer_append, onLayer_plate_leftPlateLoop right rest]
      simp [onLayer, List.filterMap_cons]

theorem onLayer_plate_rightPlateLoop (right : ℚ) :
    ∀ (rm : List ℚ), onLayer .plate (rightPlateLoop right rm)
      = rm.map (fun pos => .circle ⟨right - intomm (3 / 16), fastenerY pos⟩ 2)
  | [] => rfl
  | pos :: rest => by
      simp only [rightPlateLoop, onLayer_append, onLayer_plate_rightPlateLoop right rest]
      simp [onLayer, List.filterMap_cons]

theorem onLayer_pc_leftPlateLoop (right : ℚ) :
    ∀ (lm : List ℚ), onLayer .plate_construction (leftPlateLoop right lm)
      = lm.map (fun pos => .line ⟨-10, fastenerY pos⟩ ⟨right / 2, fastenerY pos⟩)
  | [] => rfl
  | pos :: rest => by
      simp only [leftPlateLoop, onLayer_append, onLayer_pc_leftPlateLoop right rest]
      simp [onLayer, List.filterMap_cons]

theorem onLayer_pc_rightPlateLoop (right : ℚ) :
    ∀ (rm : List ℚ), onLayer .plate_construction (rightPlateLoop right rm)
      = rm.map (fun pos => .line ⟨right / 2, fastenerY pos⟩ ⟨right + 10, fastenerY pos⟩)
  | [] => rfl
  | pos :: rest => by
      simp only [rightPlateLoop, onLayer_append, onLayer_pc_rightPlateLoop right rest]
      simp [onLayer, List.filterMap_cons]

theorem onLayer_fascia_leftLoop (right lx : ℚ) :
    ∀ (lm : List ℚ) (ly : ℚ), onLayer .fascia (leftLoop right lx ly lm)
      = (leftTagged lx ly lm).map Prod.fst
  | [], ly => rfl
  | pos :: rest, ly => by
      simp only [leftLoop, leftTagged, onLayer_append, List.map_append,
        onLayer_fascia_leftLoop right lx rest]
      simp [onLayer, leftRebate, leftRebateTagged, List.filterMap_cons]

theorem onLayer_fascia_rightLoop (right lx : ℚ) :
    ∀ (rm : List ℚ) (ly : ℚ), onLayer .fascia (rightLoop right lx ly rm)
      = (rightTagged right lx ly rm).map Prod.fst
  | [], ly => rfl
  | pos :: rest, ly => by
      simp only [rightLoop, rightTagged, onLayer_append, List.map_append,
        onLayer_fascia_rightLoop right lx rest]
      simp [onLayer, rightRebate, rightRebateTagged, List.filterMap_cons]

theorem onLayer_fc_leftLoop (right lx : ℚ) :
    ∀ (lm : List ℚ) (ly : ℚ), onLayer .fascia_construction (leftLoop right lx ly lm)
      = lm.map (fun pos => .line ⟨-10, fastenerY pos⟩ ⟨right / 2, fastenerY pos⟩)
  | [], ly => rfl
  | pos :: rest, ly => by
      simp only [leftLoop, onLayer_append, onLayer_fc_leftLoop right lx rest]
      simp [onLayer, leftRebate, List.filterMap_cons]

theorem onLayer_fc_rightLoop (right lx : ℚ) :
    ∀ (rm : List ℚ) (ly : ℚ), onLayer .fascia_construction (rightLoop right lx ly rm)
      = rm.map (fun pos => .line ⟨right / 2, fastenerY pos⟩ ⟨right + 10, fastenerY pos⟩)
  | [], ly => rfl
  | pos :: rest, ly => by
      simp only [rightLoop, onLayer_append, onLayer_fc_rightLoop right lx rest]
      simp [onLayer, rightRebate, List.filterMap_cons]

/-! ### What each layer of the whole drawing contains -/

theorem onLayer_plate_makePanel (w h : ℚ) (lm rm : List ℚ) :
    onLayer .plate (makePanel w h lm rm)
      = [ .line ⟨0, 0⟩ ⟨intomm w, 0⟩,
          .line ⟨intomm w, 0⟩ ⟨intomm w, intomm (h * (3 / 8))⟩,
          .line ⟨intomm w, intomm (h * (3 / 8))⟩ ⟨0, intomm (h * (3 / 8))⟩,
          .line ⟨0, intomm (h * (3 / 8))⟩ ⟨0, 0⟩ ]
        ++ lm.map (fun pos => .circle ⟨intomm (3 / 16), fastenerY pos⟩ 2)
        ++ rm.map (fun pos => .circle ⟨intomm w - intomm (3 / 16), fastenerY pos⟩ 2) := by
  have e1 : ∀ lx ly l, onLayer .plate (leftLoop (intomm w) lx ly l) = [] :=
    fun lx ly l => onLayer_leftLoop_nil _ _ _ _ _ (by simp) (by simp)
  have e2 : ∀ lx ly l, onLayer .plate (rightLoop (intomm w) lx ly l) = [] :=
    fun lx ly l => onLayer_rightLoop_nil _ _ _ _ _ (by simp) (by simp)
  by_cases hl : lm = [] <;> by_cases hr : rm = [] <;>
    simp [makePanel, leftPlateMount, rightPlateMount, leftFascia, rightFascia,
      plateOutline, fasciaOutline, fasciaCentreLines, decalCentreline,
      onLayer_append, onLayer_cons, onLayer_nil, hl, hr, e1, e2,
      onLayer_plate_leftPlateLoop, onLayer_plate_rightPlateLoop,
      leftLoop, rightLoop]

theorem onLayer_pc_makePanel (w h : ℚ) (lm rm : List ℚ) :
    onLayer .plate_construction (makePanel w h lm rm)
      = (if lm = [] then [] else
          [.line ⟨intomm (3 / 16), -10⟩ ⟨intomm (3 / 16), intomm (h * (3 / 8)) + 10⟩])
        ++ lm.map (fun pos => .line ⟨-10, fastenerY pos⟩ ⟨intomm w / 2, fastenerY pos⟩)
        ++ (if rm = [] then [] else
          [.line ⟨intomm w - intomm (3 / 16), -10⟩
              ⟨intomm w - intomm (3 / 16), intomm (h * (3 / 8)) + 10⟩])
        ++ rm.map (fun pos => .line ⟨intomm w / 2, fastenerY pos⟩ ⟨intomm w + 10, fastenerY pos⟩) := by
  have e1 : ∀ lx ly l, onLayer .plate_construction (leftLoop (intomm w) lx ly l) = [] :=
    fun lx ly l => onLayer_leftLoop_nil _ _ _ _ _ (by simp) (by simp)
  have e2 : ∀ lx ly l, onLayer .plate_construction (rightLoop (intomm w) lx ly l) = [] :=
    fun lx ly l => onLayer_rightLoop_nil _ _ _ _ _ (by simp) (by simp)
  by_cases hl : lm = [] <;> by_cases hr : rm = [] <;>
    simp [makePanel, leftPlateMount, rightPlateMount, leftFascia, rightFascia,
      plateOutline, fasciaOutline, fasciaCentreLines, decalCentreline,
      onLayer_append, onLayer_cons, onLayer_nil, hl, hr, e1, e2,
      onLayer_pc_leftPlateLoop, onLayer_pc_rightPlateLoop,
      leftLoop, rightLoop]

theorem onLayer_fascia_makePanel (w h : ℚ) (lm rm : List ℚ) :
    onLayer .fascia (makePanel w h lm rm)
      = [ .arc ⟨intomm (2 / 32), intomm (2 / 32)⟩ (intomm (1 / 32)) 180 270,
          .line ⟨intomm (2 / 32), intomm (1 / 32)⟩
            ⟨intomm w - intomm (2 / 32), intomm (1 / 32)⟩,
          .arc ⟨intomm w - intomm (2 / 32), intomm (2 / 32)⟩ (intomm (1 / 32)) 270 0,
          .arc ⟨intomm (2 / 32), intomm (h * (3 / 8)) - intomm (2 / 32)⟩ (intomm (1 / 32)) 90 180,
          .line ⟨intomm (2 / 32), intomm (h * (3 / 8)) - intomm (1 / 32)⟩
            ⟨intomm w - intomm (2 / 32), intomm (h * (3 / 8)) - intomm (1 / 32)⟩,
          .arc ⟨intomm w - intomm (2 / 32), intomm (h * (3 / 8)) - intomm (2 / 32)⟩
            (intomm (1 / 32)) 0 90 ]
        ++ ((leftTagged (intomm (1 / 32)) (intomm (2 / 32)) lm).map Prod.fst
            ++ [.line ⟨intomm (1 / 32), finalY (intomm (2 / 32)) lm⟩
                  ⟨intomm (1 / 32), intomm (h * (3 / 8)) - intomm (2 / 32)⟩])
        ++ ((rightTagged (intomm w) (intomm w - intomm (1 / 32)) (intomm (2 / 32)) rm).map Prod.fst
            ++ [.line ⟨intomm w - intomm (1 / 32), finalY (intomm (2 / 32)) rm⟩
                  ⟨intomm w - intomm (1 / 32), intomm (h * (3 / 8)) - intomm (2 / 32)⟩]) := by
  have e1 : ∀ l, onLayer .fascia (leftPlateLoop (intomm w) l) = [] :=
    fun l => onLayer_leftPlateLoop_nil _ _ _ (by simp) (by simp)
  have e2 : ∀ l, onLayer .fascia (rightPlateLoop (intomm w) l) = [] :=
    fun l => onLayer_rightPlateLoop_nil _ _ _ (by simp) (by simp)
  by_cases hl : lm = [] <;> by_cases hr : rm = [] <;>
    simp [makePanel, leftPlateMount, rightPlateMount, leftFascia, rightFascia,
      plateOutline, fasciaOutline, fasciaCentreLines, decalCentreline,
      onLayer_append, onLayer_cons, onLayer_nil, hl, hr, e1, e2,
      onLayer_fascia_leftLoop, onLayer_fascia_rightLoop,
      leftPlateLoop, rightPlateLoop, leftTagged, rightTagged, finalY]

theorem onLayer_decal_makePanel (w h : ℚ) (lm rm : List ℚ) :
    onLayer .decal (makePanel w h lm rm) = [] := by
  have e1 : ∀ lx ly l, onLayer .decal (leftLoop (intomm w) lx ly l) = [] :=
    fun lx ly l => onLayer_leftLoop_nil _ _ _ _ _ (by simp) (by simp)
  have e2 : ∀ lx ly l, onLayer .decal (rightLoop (intomm w) lx ly l) = [] :=
    fun lx ly l => onLayer_rightLoop_nil _ _ _ _ _ (by simp) (by simp)
  have e3 : ∀ l, onLayer .decal (leftPlateLoop (intomm w) l) = [] :=
    fun l => onLayer_leftPlateLoop_nil _ _ _ (by simp) (by simp)
  have e4 : ∀ l, onLayer .decal (rightPlateLoop (intomm w) l) = [] :=
    fun l => onLayer_rightPlateLoop_nil _ _ _ (by simp) (by simp)
  by_cases hl : lm = [] <;> by_cases hr : rm = [] <;>
    simp [makePanel, leftPlateMount, rightPlateMount, leftFascia, rightFascia,
      plateOutline, fasciaOutline, fasciaCentreLines, decalCentreline,
      onLayer_append, onLayer_cons, onLayer_nil, hl, hr, e1, e2, e3, e4,
      leftPlateLoop, rightPlateLoop, leftLoop, rightLoop]

theorem onLayer_dc_makePanel (w h : ℚ) (lm rm : List ℚ) :
    onLayer .decal_construction (makePanel w h lm rm)
      = [.line ⟨-10, intomm (h * (3 / 8)) - intomm (13 / 64)⟩
            ⟨intomm w + 10, intomm (h * (3 / 8)) - intomm (13 / 64)⟩] := by
  have e1 : ∀ lx ly l, onLayer .decal_construction (leftLoop (intomm w) lx ly l) = [] :=
    fun lx ly l => onLayer_leftLoop_nil _ _ _ _ _ (by simp) (by simp)
  have e2 : ∀ lx ly l, onLayer .decal_construction (rightLoop (intomm w) lx ly l) = [] :=
    fun lx ly l => onLayer_rightLoop_nil _ _ _ _ _ (by simp) (by simp)
  have e3 : ∀ l, onLayer .decal_construction (leftPlateLoop (intomm w) l) = [] :=
    fun l => onLayer_leftPlateLoop_nil _ _ _ (by simp) (by simp)
  have e4 : ∀ l, onLayer .decal_construction (rightPlateLoop (intomm w) l) = [] :=
    fun l => onLayer_rightPlateLoop_nil _ _ _ (by simp) (by simp)
  by_cases hl : lm = [] <;> by_cases hr : rm = [] <;>
    simp [makePanel, leftPlateMount, rightPlateMount, leftFascia, rightFascia,
      plateOutline, fasciaOutline, fasciaCentreLines, decalCentreline,
      onLayer_append, onLayer_cons, onLayer_nil, hl, hr, e1, e2, e3, e4,
      leftPlateLoop, rightPlateLoop, leftLoop, rightLoop]

/-! ### Claim theorems (first batch) -/

/-- Claim C10: for every input nothing is emitted on the `decal` layer, and
the only decal-related output is one horizontal construction line on
`decal_construction` at `y = height_mm - intomm (13/64)`, from `x = -10` to
`x = width_mm + 10`. -/
theorem decal_only_construction_centreline (w h : ℚ) (lm rm : List ℚ) :
    onLayer .decal (makePanel w h lm rm) = [] ∧
    onLayer .decal_construction (makePanel w h lm rm) =
      [.line ⟨-10, intomm (h * (3 / 8)) - intomm (13 / 64)⟩
          ⟨intomm w + 10, intomm (h * (3 / 8)) - intomm (13 / 64)⟩] :=
  ⟨onLayer_decal_makePanel w h lm rm, onLayer_dc_makePanel w h lm rm⟩

/-- Claim C5: with empty fastener lists on both sides the fascia layer is
exactly a rounded rectangle — four quarter-circle corner arcs of radius
`intomm (1/32)` (angle spans 180–270, 270–0, 90–180, 0–90) and four straight
edges (bottom, top, and the two side closing lines), inset 1/32 inch from
the plate — with no rebate sequence and no mounting circle on the plate
layer. -/
theorem empty_mounts_give_rounded_rectangle (w h : ℚ) :
    onLayer .fascia (makePanel w h [] []) =
      [ .arc ⟨intomm (2 / 32), intomm (2 / 32)⟩ (intomm (1 / 32)) 180 270,
        .line ⟨intomm (2 / 32), intomm (1 / 32)⟩
          ⟨intomm w - intomm (2 / 32), intomm (1 / 32)⟩,
        .arc ⟨intomm w - intomm (2 / 32), intomm (2 / 32)⟩ (intomm (1 / 32)) 270 0,
        .arc ⟨intomm (2 / 32), intomm (h * (3 / 8)) - intomm (2 / 32)⟩ (intomm (1 / 32)) 90 180,
        .line ⟨intomm (2 / 32), intomm (h * (3 / 8)) - intomm (1 / 32)⟩
          ⟨intomm w - intomm (2 / 32), intomm (h * (3 / 8)) - intomm (1 / 32)⟩,
        .arc ⟨intomm w - intomm (2 / 32), intomm (h * (3 / 8)) - intomm (2 / 32)⟩
          (intomm (1 / 32)) 0 90,
        .line ⟨intomm (1 / 32), intomm (2 / 32)⟩
          ⟨intomm (1 / 32), intomm (h * (3 / 8)) - intomm (2 / 32)⟩,
        .line ⟨intomm w - intomm (1 / 32), intomm (2 / 32)⟩
          ⟨intomm w - intomm (1 / 32), intomm (h * (3 / 8)) - intomm (2 / 32)⟩ ]
    ∧ plateCircles (makePanel w h [] []) = [] := by
  constructor
  · rw [onLayer_fascia_makePanel]
    simp [leftTagged, rightTagged, finalY]
  · simp only [plateCircles, onLayer_plate_makePanel]
    simp [isCircle]

/-- Claim C3: the mounting holes drilled in the plate are exactly one circle
of radius 2 mm per fastener position, on layer `plate`, centred at
x = `intomm (3/16)` (left side) or `width_mm - intomm (3/16)` (right side)
and y = `fastenerY pos = intomm (pos*(3/8) + (3/16))`; and the
`plate_construction` layer carries exactly one horizontal locating line per
fastener between the panel midline and 10 mm outside the near edge (plus the
one vertical edge-offset line per non-empty side).  This exhibits the exact
endpoints: the per-fastener line starts 10 mm outside the near edge and ends
at the midline `width_mm / 2`. -/
theorem plate_mounting_holes (w h : ℚ) (lm rm : List ℚ) :
    plateCircles (makePanel w h lm rm)
      = lm.map (fun pos => .circle ⟨intomm (3 / 16), fastenerY pos⟩ 2)
        ++ rm.map (fun pos => .circle ⟨intomm w - intomm (3 / 16), fastenerY pos⟩ 2)
    ∧ onLayer .plate_construction (makePanel w h lm rm)
      = (if lm = [] then [] else
          [.line ⟨intomm (3 / 16), -10⟩ ⟨intomm (3 / 16), intomm (h * (3 / 8)) + 10⟩])
        ++ lm.map (fun pos => .line ⟨-10, fastenerY pos⟩ ⟨intomm w / 2, fastenerY pos⟩)
        ++ (if rm = [] then [] else
          [.line ⟨intomm w - intomm (3 / 16), -10⟩
              ⟨intomm w - intomm (3 / 16), intomm (h * (3 / 8)) + 10⟩])
        ++ rm.map (fun pos => .line ⟨intomm w / 2, fastenerY pos⟩ ⟨intomm w + 10, fastenerY pos⟩) := by
  refine ⟨?_, onLayer_pc_makePanel w h lm rm⟩
  simp only [plateCircles, onLayer_plate_makePanel]
  simp [List.filter_append, List.filter_map, Function.comp_def, isCircle]

/-- Claim C6 (the code, run on a non-ascending fastener list): `make_panel.py`
performs no validation of the fastener position lists; on the
spec's scenario input `left_mount = [7, 1]` it still emits the full drawing
of 55 primitives (no InvalidFastenerPosition error exists anywhere in the
program — the generation function is total). -/
theorem non_ascending_list_still_emits :
    ¬ List.Chain' (· < ·) ([7, 1] : List ℚ)
    ∧ (makePanel (23 / 4) 9 [7, 1] [1, 7]).length = 55 := by
  constructor
  · intro hch
    rw [List.chain'_cons] at hch
    exact absurd hch.1 (by norm_num)
  · rfl

/-- Claim C7 (the code, run at height 0): `make_panel.py` performs no
validation of the panel dimensions; with `h_units = 0` it still emits the
full 15-primitive drawing, whose plate outline is a degenerate rectangle of
height 0. -/
theorem zero_height_still_emits :
    (makePanel (23 / 4) 0 [] []).length = 15
    ∧ onLayer .plate (makePanel (23 / 4) 0 [] []) =
        [ .line ⟨0, 0⟩ ⟨intomm (23 / 4), 0⟩,
          .line ⟨intomm (23 / 4), 0⟩ ⟨intomm (23 / 4), 0⟩,
          .line ⟨intomm (23 / 4), 0⟩ ⟨0, 0⟩,
          .line ⟨0, 0⟩ ⟨0, 0⟩ ] := by
  constructor
  · rfl
  · rw [onLayer_plate_makePanel]
    norm_num [intomm]

/-! ### Scenario A (claim C2) -/

/-- The y-coordinates of the centres of the plate mounting circles, in
emission order. -/
def circleYs (es : List Entity) : List ℚ :=
  (plateCircles es).filterMap (fun p =>
    match p with
    | .circle c _ => some c.y
    | _ => none)

/-- The 180-degree rebate pocket arcs (radius `intomm (3/16 + 1/16)`) on the
fascia layer whose centre has the given x-coordinate. -/
def rebatePocketArcs (x : ℚ) (es : List Entity) : List Primitive :=
  (onLayer .fascia es).filter (fun p =>
    match p with
    | .arc c r _ _ => if c.x = x ∧ r = intomm (3 / 16 + 1 / 16) then true else false
    | _ => false)

/-- Claim C2, counterexample: on Scenario A (width 5.75 in, height 9 units,
mounts [1,7]/[1,7]) the plate mounting circles sit at y = 1143/80 = 14.2875
mm and y = 1143/16 = 71.4375 mm — which is what the claim's own formula
`pos*9.525+4.7625` gives — and no mounting circle is within 0.5 mm of the
claim's stated height y ≈ 18.256 mm (= 2282/125). -/
theorem scenarioA_hole_heights_counterexample :
    circleYs (makePanel (23 / 4) 9 [1, 7] [1, 7])
      = [1143 / 80, 1143 / 16, 1143 / 80, 1143 / 16]
    ∧ ∀ y ∈ circleYs (makePanel (23 / 4) 9 [1, 7] [1, 7]),
        ¬ |y - 2282 / 125| ≤ 1 / 2 := by
  have hc : circleYs (makePanel (23 / 4) 9 [1, 7] [1, 7])
      = [1143 / 80, 1143 / 16, 1143 / 80, 1143 / 16] := by
    simp only [circleYs, plateCircles, onLayer_plate_makePanel]
    norm_num [fastenerY, intomm, isCircle, List.filter_append, List.filter_map,
      Function.comp_def, List.filterMap_cons]
  refine ⟨hc, ?_⟩
  rw [hc]
  intro y hy habs
  rw [abs_le] at habs
  obtain ⟨h1, h2⟩ := habs
  fin_cases hy <;> norm_num at h1 h2

/-- Claim C2, amended: on Scenario A the plate outline is the rectangle
(0,0)–(2921/20, 3429/40) = (0,0)–(146.05, 85.725) mm, the fascia carries
exactly 2 rebate pocket sequences per side (counted by their unique
radius-`intomm(1/4)` pocket arcs at the side's fastener-centre x), and each
side has two radius-2 mounting circles at y = 1143/80 = 14.2875 mm and
y = 1143/16 = 71.4375 mm, exactly `pos*9.525 + 4.7625` for pos = 1, 7 (the
claim's stated heights 18.256 mm and 70.4625 mm are wrong). -/
theorem scenarioA_amended :
    (onLayer .plate (makePanel (23 / 4) 9 [1, 7] [1, 7])).filter isLine
      = [ .line ⟨0, 0⟩ ⟨2921 / 20, 0⟩,
          .line ⟨2921 / 20, 0⟩ ⟨2921 / 20, 3429 / 40⟩,
          .line ⟨2921 / 20, 3429 / 40⟩ ⟨0, 3429 / 40⟩,
          .line ⟨0, 3429 / 40⟩ ⟨0, 0⟩ ]
    ∧ (rebatePocketArcs (381 / 80) (makePanel (23 / 4) 9 [1, 7] [1, 7])).length = 2
    ∧ (rebatePocketArcs (11303 / 80) (makePanel (23 / 4) 9 [1, 7] [1, 7])).length = 2
    ∧ plateCircles (makePanel (23 / 4) 9 [1, 7] [1, 7])
      = [ .circle ⟨381 / 80, 1143 / 80⟩ 2,
          .circle ⟨381 / 80, 1143 / 16⟩ 2,
          .circle ⟨11303 / 80, 1143 / 80⟩ 2,
          .circle ⟨11303 / 80, 1143 / 16⟩ 2 ]
    ∧ (1143 / 80 : ℚ) = 1 * (9525 / 1000) + 47625 / 10000
    ∧ (1143 / 16 : ℚ) = 7 * (9525 / 1000) + 47625 / 10000 := by
  refine ⟨?_, ?_, ?_, ?_, by norm_num, by norm_num⟩
  · rw [onLayer_plate_makePanel]
    norm_num [intomm, fastenerY, isLine, List.filter_append, List.filter_map,
      Function.comp_def]
  · simp only [rebatePocketArcs, onLayer_fascia_makePanel]
    norm_num [leftTagged, leftRebateTagged, rightTagged, rightRebateTagged,
      finalY, fastenerY, intomm, List.filter_append, List.filter_cons]
  · simp only [rebatePocketArcs, onLayer_fascia_makePanel]
    norm_num [leftTagged, leftRebateTagged, rightTagged, rightRebateTagged,
      finalY, fastenerY, intomm, List.filter_append, List.filter_cons]
  · simp only [plateCircles, onLayer_plate_makePanel]
    norm_num [fastenerY, intomm, isCircle, List.filter_append, List.filter_map,
      Function.comp_def]

/-! ### Construction-line extents (claim C9) -/

/-- Pointwise truth of a predicate on every element of a list (used to keep
claim statements free of membership hypotheses). -/
def AllOf (P : Entity → Prop) : List Entity → Prop
  | [] => True
  | e :: es => P e ∧ AllOf P es

theorem AllOf_append {P : Entity → Prop} :
    ∀ {a b : List Entity}, AllOf P a → AllOf P b → AllOf P (a ++ b)
  | [], _, _, hb => hb
  | _ :: _, _, ha, hb => ⟨ha.1, AllOf_append ha.2 hb⟩

/-- Every construction-layer entity is a line that is either vertical from
`y = -10` to `y = top + 10`, or horizontal spanning the full width
(`x = -10` to `right + 10`), the left half (`x = -10` to the midline
`right/2`) or the right half (midline to `right + 10`). -/
def ConstructionOk (right top : ℚ) (e : Entity) : Prop :=
  match e.layer with
  | .plate_construction | .fascia_construction | .decal_construction =>
      match e.prim with
      | .line s t =>
          (s.x = t.x ∧ s.y = -10 ∧ t.y = top + 10)
          ∨ (s.y = t.y ∧
              ((s.x = -10 ∧ t.x = right + 10)
               ∨ (s.x = -10 ∧ t.x = right / 2)
               ∨ (s.x = right / 2 ∧ t.x = right + 10)))
      | _ => False
  | _ => True

theorem constructionOk_leftLoop (right top lx : ℚ) :
    ∀ (lm : List ℚ) (ly : ℚ), AllOf (ConstructionOk right top) (leftLoop right lx ly lm)
  | [], ly => trivial
  | pos :: rest, ly => by
      simp only [leftLoop, leftRebate]
      refine AllOf_append ?_ (constructionOk_leftLoop right top lx rest _)
      refine ⟨?_, ?_, ?_, ?_, ?_, ?_, ?_, trivial⟩ <;> simp [ConstructionOk]

theorem constructionOk_rightLoop (right top lx : ℚ) :
    ∀ (rm : List ℚ) (ly : ℚ), AllOf (ConstructionOk right top) (rightLoop right lx ly rm)
  | [], ly => trivial
  | pos :: rest, ly => by
      simp only [rightLoop, rightRebate]
      refine AllOf_append ?_ (constructionOk_rightLoop right top lx rest _)
      refine ⟨?_, ?_, ?_, ?_, ?_, ?_, ?_, trivial⟩ <;> simp [ConstructionOk]

theorem constructionOk_leftPlateLoop (right top : ℚ) :
    ∀ (lm : List ℚ), AllOf (ConstructionOk right top) (leftPlateLoop right lm)
  | [] => trivial
  | pos :: rest => by
      simp only [leftPlateLoop]
      refine AllOf_append ?_ (constructionOk_leftPlateLoop right top rest)
      refine ⟨?_, ?_, trivial⟩ <;> simp [ConstructionOk]

theorem constructionOk_rightPlateLoop (right top : ℚ) :
    ∀ (rm : List ℚ), AllOf (ConstructionOk right top) (rightPlateLoop right rm)
  | [] => trivial
  | pos :: rest => by
      simp only [rightPlateLoop]
      refine AllOf_append ?_ (constructionOk_rightPlateLoop right top rest)
      refine ⟨?_, ?_, trivial⟩ <;> simp [ConstructionOk]

/-- Claim C9: every construction line extends exactly 10 mm beyond the plate
rectangle: vertical construction lines run from y = -10 to y = height_mm+10;
full-width horizontal ones from x = -10 to width_mm+10; each per-fastener
horizontal line runs between the panel midline and 10 mm outside the near
edge.  (`ConstructionOk` also certifies that nothing but lines appears on
the three construction layers.) -/
theorem construction_lines_extents (w h : ℚ) (lm rm : List ℚ) :
    AllOf (ConstructionOk (intomm w) (intomm (h * (3 / 8)))) (makePanel w h lm rm) := by
  unfold makePanel
  refine AllOf_append (AllOf_append (AllOf_append (AllOf_append (AllOf_append
    (AllOf_append (AllOf_append ?_ ?_) ?_) ?_) ?_) ?_) ?_) ?_
  · refine ⟨?_, ?_, ?_, ?_, trivial⟩ <;> simp [ConstructionOk]
  · unfold leftPlateMount
    refine AllOf_append ?_ (constructionOk_leftPlateLoop _ _ lm)
    by_cases hl : lm = []
    · rw [if_pos hl]; trivial
    · rw [if_neg hl]
      exact ⟨by simp [ConstructionOk], trivial⟩
  · unfold rightPlateMount
    refine AllOf_append ?_ (constructionOk_rightPlateLoop _ _ rm)
    by_cases hr : rm = []
    · rw [if_pos hr]; trivial
    · rw [if_neg hr]
      exact ⟨by simp [ConstructionOk], trivial⟩
  · refine ⟨?_, ?_, ?_, ?_, ?_, ?_, trivial⟩ <;> simp [ConstructionOk]
  · refine ⟨?_, ?_, trivial⟩ <;> simp [ConstructionOk]
  · unfold leftFascia
    refine AllOf_append (AllOf_append ?_ (constructionOk_leftLoop _ _ _ lm _)) ?_
    · by_cases hl : lm = []
      · rw [if_pos hl]; trivial
      · rw [if_neg hl]
        exact ⟨by simp [ConstructionOk], trivial⟩
    · exact ⟨by simp [ConstructionOk], trivial⟩
  · unfold rightFascia
    refine AllOf_append (AllOf_append ?_ (constructionOk_rightLoop _ _ _ rm _)) ?_
    · by_cases hr : rm = []
      · rw [if_pos hr]; trivial
      · rw [if_neg hr]
        exact ⟨by simp [ConstructionOk], trivial⟩
    · exact ⟨by simp [ConstructionOk], trivial⟩
  · exact ⟨by simp [ConstructionOk], trivial⟩

/-! ### Mirror symmetry (claim C4) -/

/-- Reflect a point about the vertical line `x = w/2`, i.e. `x → w - x`. -/
def mirrorPt (w : ℚ) (p : Point) : Point := ⟨w - p.x, p.y⟩

/-- Normalize an angle into [0, 360). Only ever applied to angles in
(-360, 720) here. -/
def normAng (a : ℚ) : ℚ := if a < 0 then a + 360 else if 360 ≤ a then a - 360 else a

/-- The mirror image of a primitive under `x → w - x`.  Reflection reverses
orientation, so a counter-clockwise arc from `a1` to `a2` maps to the
counter-clockwise arc from `180 - a2` to `180 - a1` (angles normalized). -/
def mirrorPrim (w : ℚ) : Primitive → Primitive
  | .line s e => .line (mirrorPt w s) (mirrorPt w e)
  | .arc c r a1 a2 => .arc (mirrorPt w c) r (normAng (180 - a2)) (normAng (180 - a1))
  | .circle c r => .circle (mirrorPt w c) r

/-- Two primitives describe the same point set: equal up to swapping a line's
endpoints (a line is the same segment in either direction). -/
def geomEq : Primitive → Primitive → Prop
  | .line s e, .line s' e' => (s = s' ∧ e = e') ∨ (s = e' ∧ e = s')
  | .arc c r a1 a2, .arc c' r' b1 b2 => c = c' ∧ r = r' ∧ a1 = b1 ∧ a2 = b2
  | .circle c r, .circle c' r' => c = c' ∧ r = r'
  | _, _ => False

/-- Entity `er` is the mirror image of entity `el`: same layer, and the same
geometry as the reflected primitive. -/
def MirrorsTo (w : ℚ) (er el : Entity) : Prop :=
  er.layer = el.layer ∧ geomEq er.prim (mirrorPrim w el.prim)

/-- All left-side geometry of the drawing (plate mounting block and fascia
block), exactly the two left-hand pieces of `makePanel`. -/
def leftSideGeom (right top : ℚ) (ps : List ℚ) : List Entity :=
  leftPlateMount right top ps ++ leftFascia right top ps

/-- All right-side geometry of the drawing. -/
def rightSideGeom (right top : ℚ) (ps : List ℚ) : List Entity :=
  rightPlateMount right top ps ++ rightFascia right top ps

theorem mirror_plate_loops (right : ℚ) :
    ∀ (ps : List ℚ),
      List.Forall₂ (MirrorsTo right) (rightPlateLoop right ps) (leftPlateLoop right ps)
  | [] => List.Forall₂.nil
  | pos :: rest => by
      simp only [leftPlateLoop, rightPlateLoop, List.cons_append, List.nil_append]
      refine List.Forall₂.cons ⟨rfl, ?_⟩ (List.Forall₂.cons ⟨rfl, ?_⟩
        (mirror_plate_loops right rest))
      · refine Or.inr ⟨?_, ?_⟩ <;> (simp [mirrorPrim, mirrorPt]; try ring)
      · simp [geomEq, mirrorPrim, mirrorPt]

theorem mirror_fascia_loops (right : ℚ) :
    ∀ (ps : List ℚ) (ly : ℚ),
      List.Forall₂ (MirrorsTo right)
        (rightLoop right (right - intomm (1 / 32)) ly ps)
        (leftLoop right (intomm (1 / 32)) ly ps)
  | [], ly => List.Forall₂.nil
  | pos :: rest, ly => by
      simp only [leftLoop, rightLoop, leftRebate, rightRebate,
        List.cons_append, List.nil_append]
      refine List.Forall₂.cons ⟨rfl, ?_⟩ (List.Forall₂.cons ⟨rfl, ?_⟩
        (List.Forall₂.cons ⟨rfl, ?_⟩ (List.Forall₂.cons ⟨rfl, ?_⟩
        (List.Forall₂.cons ⟨rfl, ?_⟩ (List.Forall₂.cons ⟨rfl, ?_⟩
        (List.Forall₂.cons ⟨rfl, ?_⟩ (mirror_fascia_loops right rest _)))))))
      · refine Or.inr ⟨?_, ?_⟩ <;> (simp [mirrorPrim, mirrorPt]; try ring)
      · refine Or.inl ⟨?_, ?_⟩ <;> simp [mirrorPrim, mirrorPt]
      · norm_num [geomEq, mirrorPrim, mirrorPt, normAng]
      · refine Or.inl ⟨?_, ?_⟩ <;> simp [mirrorPrim, mirrorPt]
      · norm_num [geomEq, mirrorPrim, mirrorPt, normAng]
      · refine Or.inl ⟨?_, ?_⟩ <;> simp [mirrorPrim, mirrorPt]
      · norm_num [geomEq, mirrorPrim, mirrorPt, normAng]

/-- Claim C4: for a panel whose two fastener lists are identical, the
right-side plate and fascia geometry is, entity by entity, the exact mirror
image of the left-side geometry under `x → width_mm - x` — as point sets
(the hand-mirrored construction lines are emitted with swapped endpoints)
with arc sweeps reversed accordingly.  The first conjunct records that these
side blocks are exactly the side-specific parts of the emitted drawing. -/
theorem mirror_symmetry (w h : ℚ) (ps : List ℚ) :
    makePanel w h ps ps
      = plateOutline (intomm w) (intomm (h * (3 / 8)))
        ++ leftPlateMount (intomm w) (intomm (h * (3 / 8))) ps
        ++ rightPlateMount (intomm w) (intomm (h * (3 / 8))) ps
        ++ fasciaOutline (intomm w) (intomm (h * (3 / 8)))
        ++ fasciaCentreLines (intomm w) (intomm (h * (3 / 8)))
        ++ leftFascia (intomm w) (intomm (h * (3 / 8))) ps
        ++ rightFascia (intomm w) (intomm (h * (3 / 8))) ps
        ++ decalCentreline (intomm w) (intomm (h * (3 / 8)))
    ∧ List.Forall₂ (MirrorsTo (intomm w))
        (rightSideGeom (intomm w) (intomm (h * (3 / 8))) ps)
        (leftSideGeom (intomm w) (intomm (h * (3 / 8))) ps) := by
  refine ⟨rfl, ?_⟩
  unfold rightSideGeom leftSideGeom rightPlateMount leftPlateMount rightFascia leftFascia
  refine List.rel_append (List.rel_append ?_ (mirror_plate_loops _ ps))
    (List.rel_append (List.rel_append ?_ (mirror_fascia_loops _ ps _)) ?_)
  · by_cases hp : ps = []
    · rw [if_pos hp, if_pos hp]; exact List.Forall₂.nil
    · rw [if_neg hp, if_neg hp]
      refine List.Forall₂.cons ⟨rfl, Or.inl ⟨?_, ?_⟩⟩ List.Forall₂.nil <;>
        simp [mirrorPrim, mirrorPt]
  · by_cases hp : ps = []
    · rw [if_pos hp, if_pos hp]; exact List.Forall₂.nil
    · rw [if_neg hp, if_neg hp]
      refine List.Forall₂.cons ⟨rfl, Or.inl ⟨?_, ?_⟩⟩ List.Forall₂.nil <;>
        simp [mirrorPrim, mirrorPt]
  · refine List.Forall₂.cons ⟨rfl, Or.inl ⟨?_, ?_⟩⟩ List.Forall₂.nil <;>
      simp [mirrorPrim, mirrorPt]



/-! ### Contour continuity (claim C1) -/

def dcos (a : ℚ) : ℚ :=
  if a = 0 then 1 else if a = 90 then 0 else if a = 180 then -1
  else if a = 270 then 0 else if a = 360 then 1 else 1

def dsin (a : ℚ) : ℚ :=
  if a = 0 then 0 else if a = 90 then 1 else if a = 180 then 0
  else if a = 270 then -1 else if a = 360 then 0 else 0

def startPt : Primitive → Point
  | .line s _ => s
  | .arc c r a1 _ => ⟨c.x + r * dcos a1, c.y + r * dsin a1⟩
  | .circle c _ => c

def endPt : Primitive → Point
  | .line _ e => e
  | .arc c r _ a2 => ⟨c.x + r * dcos a2, c.y + r * dsin a2⟩
  | .circle c _ => c

def Primitive.rev : Primitive → Primitive
  | .line s e => .line e s
  | .arc c r a1 a2 => .arc c r a2 a1
  | .circle c r => .circle c r

theorem startPt_rev (p : Primitive) : startPt p.rev = endPt p := by
  cases p <;> rfl

theorem endPt_rev (p : Primitive) : endPt p.rev = startPt p := by
  cases p <;> rfl

theorem rev_rev (p : Primitive) : p.rev.rev = p := by
  cases p <;> rfl

def Chain : Point → List Primitive → Point → Prop
  | a, [], b => a = b
  | a, p :: ps, b => a = startPt p ∧ Chain (endPt p) ps b

theorem chain_append {a b c : Point} :
    ∀ {l m : List Primitive}, Chain a l b → Chain b m c → Chain a (l ++ m) c
  | [], _, h1, h2 => by
      rw [List.nil_append]
      exact h1 ▸ h2
  | _ :: _, _, h1, h2 => ⟨h1.1, chain_append h1.2 h2⟩

theorem chain_cast {a a' b b' : Point} {l : List Primitive}
    (h : Chain a l b) (ha : a' = a) (hb : b = b') : Chain a' l b' := by
  subst ha; subst hb; exact h

theorem chain_rev_aux :
    ∀ {l : List Primitive} {a b : Point}, Chain a l b →
      Chain b ((l.map Primitive.rev).reverse) a
  | [], _, _, h => h.symm
  | p :: l, a, b, h => by
      simp only [List.map_cons, List.reverse_cons]
      refine chain_append (chain_rev_aux h.2) ⟨(startPt_rev p).symm, ?_⟩
      rw [endPt_rev]
      exact h.1.symm

def applyO (pb : Primitive × Bool) : Primitive := if pb.2 then pb.1.rev else pb.1

def revChain (l : List (Primitive × Bool)) : List (Primitive × Bool) :=
  (l.map (fun pb => (pb.1, !pb.2))).reverse

theorem applyO_flip (p : Primitive) (b : Bool) :
    applyO (p, !b) = (applyO (p, b)).rev := by
  cases b <;> simp [applyO, rev_rev]

theorem revChain_map_applyO (l : List (Primitive × Bool)) :
    (revChain l).map applyO = ((l.map applyO).map Primitive.rev).reverse := by
  simp only [revChain, List.map_reverse, List.map_map]
  congr 1
  refine List.map_congr_left ?_
  intro pb _
  exact applyO_flip pb.1 pb.2

theorem revChain_map_fst (l : List (Primitive × Bool)) :
    (revChain l).map Prod.fst = (l.map Prod.fst).reverse := by
  simp [revChain, List.map_reverse, List.map_map, Function.comp_def]

theorem chain_rev_tagged {l : List (Primitive × Bool)} {a b : Point}
    (h : Chain a (l.map applyO) b) : Chain b ((revChain l).map applyO) a := by
  rw [revChain_map_applyO]
  exact chain_rev_aux h

theorem chain_leftTagged :
    ∀ (lm : List ℚ) (ly : ℚ),
      Chain ⟨intomm (1 / 32), ly⟩
        ((leftTagged (intomm (1 / 32)) ly lm).map applyO)
        ⟨intomm (1 / 32), finalY ly lm⟩
  | [], ly => rfl
  | pos :: rest, ly => by
      simp only [leftTagged, List.map_append, finalY]
      refine chain_append ?_ (chain_leftTagged rest _)
      simp only [leftRebateTagged, List.map_cons, List.map_nil]
      refine ⟨?_, ?_, ?_, ?_, ?_, ?_, ?_⟩ <;>
        (simp [Chain, applyO, Primitive.rev, startPt, endPt, dcos, dsin,
          Point.mk.injEq, intomm, fastenerY]; try ring)

theorem chain_rightTagged (right : ℚ) :
    ∀ (rm : List ℚ) (ly : ℚ),
      Chain ⟨right - intomm (1 / 32), ly⟩
        ((rightTagged right (right - intomm (1 / 32)) ly rm).map applyO)
        ⟨right - intomm (1 / 32), finalY ly rm⟩
  | [], ly => rfl
  | pos :: rest, ly => by
      simp only [rightTagged, List.map_append, finalY]
      refine chain_append ?_ (chain_rightTagged right rest _)
      simp only [rightRebateTagged, List.map_cons, List.map_nil]
      refine ⟨?_, ?_, ?_, ?_, ?_, ?_, ?_⟩ <;>
        (simp [Chain, applyO, Primitive.rev, startPt, endPt, dcos, dsin,
          Point.mk.injEq, intomm, fastenerY]; try ring)

/-- The closed boundary walk of the fascia, as orientation-tagged primitives:
bottom-left corner, bottom edge, bottom-right corner, the right side bottom
to top (rebates and closing line), top-right corner, top edge (walked in
reverse), top-left corner, and the left side walked top to bottom (the
reversal of its bottom-to-top emission).  Projecting the tags away gives a
permutation of exactly the primitives emitted on the fascia layer. -/
def fasciaContourTagged (right top : ℚ) (lm rm : List ℚ) : List (Primitive × Bool) :=
  [ (.arc ⟨intomm (2 / 32), intomm (2 / 32)⟩ (intomm (1 / 32)) 180 270, false),
    (.line ⟨intomm (2 / 32), intomm (1 / 32)⟩
        ⟨right - intomm (2 / 32), intomm (1 / 32)⟩, false),
    (.arc ⟨right - intomm (2 / 32), intomm (2 / 32)⟩ (intomm (1 / 32)) 270 0, false) ]
  ++ (rightTagged right (right - intomm (1 / 32)) (intomm (2 / 32)) rm
      ++ [(.line ⟨right - intomm (1 / 32), finalY (intomm (2 / 32)) rm⟩
             ⟨right - intomm (1 / 32), top - intomm (2 / 32)⟩, false)])
  ++ [ (.arc ⟨right - intomm (2 / 32), top - intomm (2 / 32)⟩ (intomm (1 / 32)) 0 90, false),
       (.line ⟨intomm (2 / 32), top - intomm (1 / 32)⟩
           ⟨right - intomm (2 / 32), top - intomm (1 / 32)⟩, true),
       (.arc ⟨intomm (2 / 32), top - intomm (2 / 32)⟩ (intomm (1 / 32)) 90 180, false) ]
  ++ revChain (leftTagged (intomm (1 / 32)) (intomm (2 / 32)) lm
      ++ [(.line ⟨intomm (1 / 32), finalY (intomm (2 / 32)) lm⟩
             ⟨intomm (1 / 32), top - intomm (2 / 32)⟩, false)])

theorem chain_fasciaContour (right top : ℚ) (lm rm : List ℚ) :
    Chain ⟨intomm (2 / 32) - intomm (1 / 32), intomm (2 / 32)⟩
      ((fasciaContourTagged right top lm rm).map applyO)
      ⟨intomm (2 / 32) - intomm (1 / 32), intomm (2 / 32)⟩ := by
  unfold fasciaContourTagged
  simp only [List.map_append]
  refine chain_append (chain_append (chain_append
    (?_ : Chain _ _ (⟨right - intomm (1 / 32), intomm (2 / 32)⟩ : Point))
    (?_ : Chain _ _ (⟨right - intomm (1 / 32), top - intomm (2 / 32)⟩ : Point)))
    (?_ : Chain _ _ (⟨intomm (1 / 32), top - intomm (2 / 32)⟩ : Point))) ?_
  · refine ⟨?_, ?_, ?_, ?_⟩ <;>
      (simp [Chain, applyO, startPt, endPt, dcos, dsin, Point.mk.injEq, intomm];
       try ring)
  · refine chain_append (chain_rightTagged right rm (intomm (2 / 32))) ⟨rfl, rfl⟩
  · refine ⟨?_, ?_, ?_, ?_⟩ <;>
      (simp [Chain, applyO, Primitive.rev, startPt, endPt, dcos, dsin,
        Point.mk.injEq, intomm]; try ring)
  · have hfwd : Chain ⟨intomm (1 / 32), intomm (2 / 32)⟩
        ((leftTagged (intomm (1 / 32)) (intomm (2 / 32)) lm
          ++ [(Primitive.line ⟨intomm (1 / 32), finalY (intomm (2 / 32)) lm⟩
                 ⟨intomm (1 / 32), top - intomm (2 / 32)⟩, false)]).map applyO)
        ⟨intomm (1 / 32), top - intomm (2 / 32)⟩ := by
      simp only [List.map_append]
      exact chain_append (chain_leftTagged lm (intomm (2 / 32))) ⟨rfl, rfl⟩
    refine chain_cast (chain_rev_tagged hfwd) rfl ?_
    norm_num [Point.mk.injEq, intomm]

theorem fasciaContour_perm (right top : ℚ) (lm rm : List ℚ) :
    List.Perm ((fasciaContourTagged right top lm rm).map Prod.fst)
      ([ .arc ⟨intomm (2 / 32), intomm (2 / 32)⟩ (intomm (1 / 32)) 180 270,
         .line ⟨intomm (2 / 32), intomm (1 / 32)⟩
           ⟨right - intomm (2 / 32), intomm (1 / 32)⟩,
         .arc ⟨right - intomm (2 / 32), intomm (2 / 32)⟩ (intomm (1 / 32)) 270 0,
         .arc ⟨intomm (2 / 32), top - intomm (2 / 32)⟩ (intomm (1 / 32)) 90 180,
         .line ⟨intomm (2 / 32), top - intomm (1 / 32)⟩
           ⟨right - intomm (2 / 32), top - intomm (1 / 32)⟩,
         .arc ⟨right - intomm (2 / 32), top - intomm (2 / 32)⟩ (intomm (1 / 32)) 0 90 ]
       ++ ((leftTagged (intomm (1 / 32)) (intomm (2 / 32)) lm).map Prod.fst
           ++ [.line ⟨intomm (1 / 32), finalY (intomm (2 / 32)) lm⟩
                 ⟨intomm (1 / 32), top - intomm (2 / 32)⟩])
       ++ ((rightTagged right (right - intomm (1 / 32)) (intomm (2 / 32)) rm).map Prod.fst
           ++ [.line ⟨right - intomm (1 / 32), finalY (intomm (2 / 32)) rm⟩
                 ⟨right - intomm (1 / 32), top - intomm (2 / 32)⟩])) := by
  unfold fasciaContourTagged
  simp only [List.map_append, revChain_map_fst, List.map_cons, List.map_nil,
    List.append_assoc]
  rw [← Multiset.coe_eq_coe]
  simp only [Multiset.coe_reverse, ← Multiset.coe_add, ← Multiset.cons_coe,
    Multiset.coe_nil, ← Multiset.singleton_add]
  abel

/-- Claim C1: the generated boundary contours are continuous and closed with
exact (hence within 1e-6 mm) endpoint joins.  The plate outline, in emission
order, forms a closed chain from (0,0) back to (0,0).  The fascia boundary:
the orientation-tagged walk `fasciaContourTagged` visits, exactly once, every
primitive emitted on the fascia layer (the permutation conjunct) and forms a
closed chain, where a `true` tag means the walk traverses that primitive
against its stored direction (a DXF arc is always stored counter-clockwise,
and some lines are stored tip-to-tail relative to the walk). -/
theorem contours_continuous_and_closed (w h : ℚ) (lm rm : List ℚ) :
    Chain ⟨0, 0⟩ ((onLayer .plate (makePanel w h lm rm)).filter isLine) ⟨0, 0⟩
    ∧ List.Perm
        ((fasciaContourTagged (intomm w) (intomm (h * (3 / 8))) lm rm).map Prod.fst)
        (onLayer .fascia (makePanel w h lm rm))
    ∧ Chain ⟨intomm (2 / 32) - intomm (1 / 32), intomm (2 / 32)⟩
        ((fasciaContourTagged (intomm w) (intomm (h * (3 / 8))) lm rm).map applyO)
        ⟨intomm (2 / 32) - intomm (1 / 32), intomm (2 / 32)⟩ := by
  refine ⟨?_, ?_, chain_fasciaContour (intomm w) (intomm (h * (3 / 8))) lm rm⟩
  · rw [onLayer_plate_makePanel]
    simp [List.filter_append, List.filter_map, Function.comp_def, isLine,
      Chain, startPt, endPt]
  · rw [onLayer_fascia_makePanel]
    exact fasciaContour_perm (intomm w) (intomm (h * (3 / 8))) lm rm


/-! ### Determinism of a generation run (claim C8) -/

/-- Append one entity to the drawing: the model of a single `msp.add_line`,
`msp.add_arc` or `msp.add_circle` call mutating the modelspace. -/
def emit (d : List Entity) (p : Primitive) (n : Layer) : List Entity := d ++ [⟨p, n⟩]

/-- The PLATE-section left loop, threading the drawing state through each
emission. -/
def runPlateLeft (right : ℚ) : List ℚ → List Entity → List Entity
  | [], d => d
  | pos :: rest, d =>
      runPlateLeft right rest
        (emit (emit d (.line ⟨-10, fastenerY pos⟩ ⟨right / 2, fastenerY pos⟩)
            .plate_construction)
          (.circle ⟨intomm (3 / 16), fastenerY pos⟩ 2) .plate)

/-- The PLATE-section right loop, threading the drawing state. -/
def runPlateRight (right : ℚ) : List ℚ → List Entity → List Entity
  | [], d => d
  | pos :: rest, d =>
      runPlateRight right rest
        (emit (emit d (.line ⟨right / 2, fastenerY pos⟩ ⟨right + 10, fastenerY pos⟩)
            .plate_construction)
          (.circle ⟨right - intomm (3 / 16), fastenerY pos⟩ 2) .plate)

/-- The FASCIA-section left rebate loop, threading drawing state and
`last_y`. -/
def runFasciaLeft (right lastx : ℚ) : List ℚ → List Entity × ℚ → List Entity × ℚ
  | [], st => st
  | pos :: rest, (d, lasty) =>
      runFasciaLeft right lastx rest
        (emit (emit (emit (emit (emit (emit (emit d
          (.line ⟨-10, fastenerY pos⟩ ⟨right / 2, fastenerY pos⟩) .fascia_construction)
          (.line ⟨lastx, lasty⟩
            ⟨intomm (1 / 32), fastenerY pos - intomm (3 / 16 + 1 / 16 + 1 / 32)⟩) .fascia)
          (.arc ⟨intomm (2 / 32), fastenerY pos - intomm (3 / 16 + 1 / 16 + 1 / 32)⟩
            (intomm (1 / 32)) 90 180) .fascia)
          (.line ⟨intomm (2 / 32), fastenerY pos - intomm (3 / 16 + 1 / 16)⟩
            ⟨intomm (3 / 16), fastenerY pos - intomm (3 / 16 + 1 / 16)⟩) .fascia)
          (.arc ⟨intomm (3 / 16), fastenerY pos⟩ (intomm (3 / 16 + 1 / 16)) 270 90) .fascia)
          (.line ⟨intomm (2 / 32), fastenerY pos + intomm (3 / 16 + 1 / 16)⟩
            ⟨intomm (3 / 16), fastenerY pos + intomm (3 / 16 + 1 / 16)⟩) .fascia)
          (.arc ⟨intomm (2 / 32), fastenerY pos + intomm (3 / 16 + 1 / 16 + 1 / 32)⟩
            (intomm (1 / 32)) 180 270) .fascia,
         fastenerY pos + intomm (3 / 16 + 1 / 16 + 1 / 32))

/-- The FASCIA-section right rebate loop, threading drawing state and
`last_y`. -/
def runFasciaRight (right lastx : ℚ) : List ℚ → List Entity × ℚ → List Entity × ℚ
  | [], st => st
  | pos :: rest, (d, lasty) =>
      runFasciaRight right lastx rest
        (emit (emit (emit (emit (emit (emit (emit d
          (.line ⟨right / 2, fastenerY pos⟩ ⟨right + 10, fastenerY pos⟩) .fascia_construction)
          (.line ⟨lastx, lasty⟩
            ⟨right - intomm (1 / 32), fastenerY pos - intomm (3 / 16 + 1 / 16 + 1 / 32)⟩) .fascia)
          (.arc ⟨right - intomm (2 / 32), fastenerY pos - intomm (3 / 16 + 1 / 16 + 1 / 32)⟩
            (intomm (1 / 32)) 0 90) .fascia)
          (.line ⟨right - intomm (2 / 32), fastenerY pos - intomm (3 / 16 + 1 / 16)⟩
            ⟨right - intomm (3 / 16), fastenerY pos - intomm (3 / 16 + 1 / 16)⟩) .fascia)
          (.arc ⟨right - intomm (3 / 16), fastenerY pos⟩ (intomm (3 / 16 + 1 / 16)) 90 270) .fascia)
          (.line ⟨right - intomm (2 / 32), fastenerY pos + intomm (3 / 16 + 1 / 16)⟩
            ⟨right - intomm (3 / 16), fastenerY pos + intomm (3 / 16 + 1 / 16)⟩) .fascia)
          (.arc ⟨right - intomm (2 / 32), fastenerY pos + intomm (3 / 16 + 1 / 16 + 1 / 32)⟩
            (intomm (1 / 32)) 270 0) .fascia,
         fastenerY pos + intomm (3 / 16 + 1 / 16 + 1 / 32))

/-- A whole run of `make_panel.py` starting from drawing state `d0`,
threading every emission sequentially in source order. -/
def runScript (s : PanelSpec) (d0 : List Entity) : List Entity :=
  let top := intomm (s.h_units * (3 / 8))
  let right := intomm s.w_inches
  let d := emit (emit (emit (emit d0
    (.line ⟨0, 0⟩ ⟨right, 0⟩) .plate) (.line ⟨right, 0⟩ ⟨right, top⟩) .plate)
    (.line ⟨right, top⟩ ⟨0, top⟩) .plate) (.line ⟨0, top⟩ ⟨0, 0⟩) .plate
  let d := if s.left_mount = [] then d else
    emit d (.line ⟨intomm (3 / 16), -10⟩ ⟨intomm (3 / 16), top + 10⟩) .plate_construction
  let d := runPlateLeft right s.left_mount d
  let d := if s.right_mount = [] then d else
    emit d (.line ⟨right - intomm (3 / 16), -10⟩ ⟨right - intomm (3 / 16), top + 10⟩)
      .plate_construction
  let d := runPlateRight right s.right_mount d
  let d := emit (emit (emit (emit (emit (emit d
    (.arc ⟨intomm (2 / 32), intomm (2 / 32)⟩ (intomm (1 / 32)) 180 270) .fascia)
    (.line ⟨intomm (2 / 32), intomm (1 / 32)⟩ ⟨right - intomm (2 / 32), intomm (1 / 32)⟩)
      .fascia)
    (.arc ⟨right - intomm (2 / 32), intomm (2 / 32)⟩ (intomm (1 / 32)) 270 0) .fascia)
    (.arc ⟨intomm (2 / 32), top - intomm (2 / 32)⟩ (intomm (1 / 32)) 90 180) .fascia)
    (.line ⟨intomm (2 / 32), top - intomm (1 / 32)⟩
      ⟨right - intomm (2 / 32), top - intomm (1 / 32)⟩) .fascia)
    (.arc ⟨right - intomm (2 / 32), top - intomm (2 / 32)⟩ (intomm (1 / 32)) 0 90) .fascia
  let d := emit (emit d (.line ⟨right / 2, -10⟩ ⟨right / 2, top + 10⟩) .fascia_construction)
    (.line ⟨-10, top / 2⟩ ⟨right + 10, top / 2⟩) .fascia_construction
  let d := if s.left_mount = [] then d else
    emit d (.line ⟨intomm (3 / 16), -10⟩ ⟨intomm (3 / 16), top + 10⟩) .fascia_construction
  let st := runFasciaLeft right (intomm (1 / 32)) s.left_mount (d, intomm (2 / 32))
  let d := emit st.1 (.line ⟨intomm (1 / 32), st.2⟩ ⟨intomm (1 / 32), top - intomm (2 / 32)⟩)
    .fascia
  let d := if s.right_mount = [] then d else
    emit d (.line ⟨right - intomm (3 / 16), -10⟩ ⟨right - intomm (3 / 16), top + 10⟩)
      .fascia_construction
  let st2 := runFasciaRight right (right - intomm (1 / 32)) s.right_mount (d, intomm (2 / 32))
  let d := emit st2.1
    (.line ⟨right - intomm (1 / 32), st2.2⟩ ⟨right - intomm (1 / 32), top - intomm (2 / 32)⟩)
    .fascia
  emit d (.line ⟨-10, top - intomm (13 / 64)⟩ ⟨right + 10, top - intomm (13 / 64)⟩)
    .decal_construction

theorem runPlateLeft_eq (right : ℚ) :
    ∀ (lm : List ℚ) (d : List Entity),
      runPlateLeft right lm d = d ++ leftPlateLoop right lm
  | [], d => by simp [runPlateLeft, leftPlateLoop]
  | pos :: rest, d => by
      simp [runPlateLeft, leftPlateLoop, runPlateLeft_eq right rest, emit,
        List.append_assoc]

theorem runPlateRight_eq (right : ℚ) :
    ∀ (rm : List ℚ) (d : List Entity),
      runPlateRight right rm d = d ++ rightPlateLoop right rm
  | [], d => by simp [runPlateRight, rightPlateLoop]
  | pos :: rest, d => by
      simp [runPlateRight, rightPlateLoop, runPlateRight_eq right rest, emit,
        List.append_assoc]

theorem runFasciaLeft_eq (right lastx : ℚ) :
    ∀ (lm : List ℚ) (d : List Entity) (lasty : ℚ),
      runFasciaLeft right lastx lm (d, lasty)
        = (d ++ leftLoop right lastx lasty lm, finalY lasty lm)
  | [], d, ly => by simp [runFasciaLeft, leftLoop, finalY]
  | pos :: rest, d, ly => by
      simp [runFasciaLeft, leftLoop, finalY, leftRebate,
        runFasciaLeft_eq right lastx rest, emit, List.append_assoc]

theorem runFasciaRight_eq (right lastx : ℚ) :
    ∀ (rm : List ℚ) (d : List Entity) (lasty : ℚ),
      runFasciaRight right lastx rm (d, lasty)
        = (d ++ rightLoop right lastx lasty rm, finalY lasty rm)
  | [], d, ly => by simp [runFasciaRight, rightLoop, finalY]
  | pos :: rest, d, ly => by
      simp [runFasciaRight, rightLoop, finalY, rightRebate,
        runFasciaRight_eq right lastx rest, emit, List.append_assoc]

theorem runScript_eq (s : PanelSpec) (d0 : List Entity) :
    runScript s d0 = d0 ++ generate s := by
  unfold runScript generate makePanel
  simp only [runPlateLeft_eq, runPlateRight_eq, runFasciaLeft_eq, runFasciaRight_eq]
  by_cases hl : s.left_mount = [] <;> by_cases hr : s.right_mount = [] <;>
    simp [hl, hr, emit, plateOutline, leftPlateMount, rightPlateMount, fasciaOutline,
      fasciaCentreLines, leftFascia, rightFascia, decalCentreline, List.append_assoc]

/-- Claim C8: a generation run is deterministic and depends on nothing but
the input `PanelSpec`: a run started from any drawing state appends exactly
`generate s`, so two runs on the same input emit identical primitive
sequences in identical order, whatever state the emitter was in. -/
theorem generation_deterministic (s : PanelSpec) (d₁ d₂ : List Entity) :
    runScript s d₁ = d₁ ++ generate s
    ∧ (runScript s d₁).drop d₁.length = (runScript s d₂).drop d₂.length := by
  refine ⟨runScript_eq s d₁, ?_⟩
  rw [runScript_eq s d₁, runScript_eq s d₂, List.drop_left, List.drop_left]

end DzusPanels
